import Mathlib

/-!
Verification of the WebTerm terminal emulator core (fynks/webterm).

The source is two near-identical JavaScript variants of a `WebTerminal`
class: `script.js` (static single-distro variant) and the dynamic
multi-distro variant.  The definitions below are a shallow embedding of
the command-interpretation and simulated-filesystem engine of those
files: JavaScript strings become `String`, JavaScript objects used as
string-keyed maps become association lists (`List (String × _)`), and
`undefined`-able arguments become `Option`.

JavaScript string primitives used by the source (`replace` with a string
pattern, `split`, `startsWith`, `endsWith`, `toLowerCase`, `trim`) are
re-implemented here by structural recursion on character lists so that
all theorems evaluate inside the kernel.  `String.prototype.replace`
with a string pattern replaces only the FIRST occurrence; this is
modelled exactly.  `toLowerCase` is modelled on ASCII letters, which
covers every string the program manipulates.
-/

set_option autoImplicit false

namespace WebTerm

/-- Boolean prefix test on character lists (structural recursion). -/
def isPref : List Char → List Char → Bool
  | [], _ => true
  | _ :: _, [] => false
  | a :: as, b :: bs => a = b && isPref as bs

/-- Boolean infix (substring) test on character lists. -/
def isInfixL (pat : List Char) : List Char → Bool
  | [] => isPref pat []
  | c :: cs => isPref pat (c :: cs) || isInfixL pat cs

/-- JS `s.startsWith(pre)`. -/
def strStartsWith (s pre : String) : Bool :=
  isPref pre.data s.data

/-- JS `s.endsWith(suf)`. -/
def strEndsWith (s suf : String) : Bool :=
  isPref suf.data.reverse s.data.reverse

/-- ASCII lower-casing of one character, as JS `toLowerCase` acts on ASCII. -/
def lowerChar (c : Char) : Char :=
  if 'A' ≤ c && c ≤ 'Z' then Char.ofNat (c.toNat + 32) else c

/-- JS `s.toLowerCase()` (ASCII fragment). -/
def strToLower (s : String) : String :=
  String.mk (s.data.map lowerChar)

/-- Replace the first occurrence of `pat` in a character list by `rep`
(the semantics of JS `String.prototype.replace` with a string pattern). -/
def replFirstL (pat rep : List Char) : List Char → List Char
  | [] => if pat.isEmpty then rep else []
  | c :: cs =>
    if isPref pat (c :: cs) then rep ++ (c :: cs).drop pat.length
    else c :: replFirstL pat rep cs

/-- JS `s.replace(pat, rep)` with a string pattern: first occurrence only. -/
def strReplaceFirst (s pat rep : String) : String :=
  String.mk (replFirstL pat.data rep.data s.data)

/-- Split a character list at every occurrence of `sep`, like JS
`s.split(sep)` for a single-character separator. -/
def splitOnCharAux (sep : Char) : List Char → List Char → List (List Char)
  | [], acc => [acc.reverse]
  | c :: cs, acc =>
    if c = sep then acc.reverse :: splitOnCharAux sep cs []
    else splitOnCharAux sep cs (c :: acc)

/-- JS `s.split(sep)` for a one-character separator. -/
def splitOnChar (sep : Char) (s : String) : List String :=
  (splitOnCharAux sep s.data []).map String.mk

/-- Split at every whitespace character. -/
def splitWsAux : List Char → List Char → List (List Char)
  | [], acc => [acc.reverse]
  | c :: cs, acc =>
    if c.isWhitespace then acc.reverse :: splitWsAux cs []
    else splitWsAux cs (c :: acc)

/-- Whitespace tokenisation: JS `s.split(/\s+/)` applied to a trimmed
string (empty fragments produced by adjacent separators are dropped,
exactly as the `+` in the regular expression does). -/
def splitWhitespace (s : String) : List String :=
  ((splitWsAux s.data []).map String.mk).filter (fun t => t ≠ "")

/-- JS `s.trim()` (ASCII whitespace fragment). -/
def strTrim (s : String) : String :=
  String.mk (((s.data.dropWhile Char.isWhitespace).reverse.dropWhile Char.isWhitespace).reverse)

/-- JS `xs.join(sep)`. -/
def joinSep (sep : String) : List String → String
  | [] => ""
  | [x] => x
  | x :: y :: rest => x ++ sep ++ joinSep sep (y :: rest)

/-- Last `/`-separated component of a path (the basename notion used by
the structural-invariant claim). -/
def basename (p : String) : String :=
  (splitOnChar '/' p).getLastD ""

/-! ## Data model

A `fileSystem` entry in the source is a JS object
`{type: 'directory', contents, parent}` or `{type: 'file', content, parent}`,
keyed by absolute path in a flat object.  The source never iterates over
the filesystem object — it only reads `this.fileSystem[path]` — so the
object is modelled as an association list where assignment conses a new
binding in front (last write wins on lookup, which is all the source
observes). -/

/-- A node of the simulated filesystem. -/
inductive FsNode where
  | dir (contents : List String) (parent : String)
  | file (content : String) (parent : String)
deriving DecidableEq

/-- The `parent` property of a node. -/
def FsNode.parent : FsNode → String
  | dir _ p => p
  | file _ p => p

abbrev FileSystem := List (String × FsNode)

/-- First-match association-list lookup: JS `obj[key]`. -/
def alookup {v : Type} (k : String) : List (String × v) → Option v
  | [] => none
  | kv :: rest => if kv.1 = k then some kv.2 else alookup k rest

/-- JS `this.fileSystem[k] = v` (observed only through `alookup`). -/
def fsSet (fs : FileSystem) (k : String) (v : FsNode) : FileSystem :=
  (k, v) :: fs

/-- A command descriptor `{description, output, action}`.  The source
stores `output` either as a single string or an array of lines and
renders each element as one output line, so a single string is embedded
as a one-element list. -/
structure Cmd where
  description : String
  output : Option (List String) := none
  action : Option String := none
deriving DecidableEq

/-- The command table `this.config.commands`, a JS object whose
insertion order is observed by `help`, the suggestions panel and
`getCommandSuggestions`. -/
abbrev CommandTable := List (String × Cmd)

/-- Truthiness of `obj[key]` for a table whose values are objects. -/
def tblHasKey (m : CommandTable) (k : String) : Bool :=
  (alookup k m).isSome

/-- JS object property assignment `obj[k] = v`: updates the value in
place when the key exists (keeping its position) and appends otherwise. -/
def objSet (m : CommandTable) (k : String) (v : Cmd) : CommandTable :=
  if tblHasKey m k then m.map (fun kv => if kv.1 = k then (k, v) else kv)
  else m ++ [(k, v)]

/-- The `system` block of a distro configuration. -/
structure SystemInfo where
  user : String
  host : String
  commandNotFound : String
deriving DecidableEq

/-- A distro configuration as consumed by the dynamic variant. -/
structure Config where
  system : SystemInfo
  filesystem : List (String × List String)
  files : List (String × String)
  commands : CommandTable
deriving DecidableEq

/-! ## Virtual filesystem construction (dynamic variant) -/

/-- The dynamic variant's `getParentPath`: split on `/`, drop empty
parts, drop the last part, re-join; `/` for paths with at most one part. -/
def getParentPath (path : String) : String :=
  let parts := (splitOnChar '/' path).filter (fun part => part ≠ "")
  if parts.length ≤ 1 then "/"
  else "/" ++ joinSep "/" parts.dropLast

/-- The directory node stored for a declared path: its `contents` are the
non-`/`-suffixed entries (each with its first `/` removed). -/
def setupDirNode (ents : List String) (fullPath : String) : FsNode :=
  FsNode.dir
    ((ents.filter (fun item => !(strEndsWith item "/"))).map
      (fun item => strReplaceFirst item "/" ""))
    (getParentPath fullPath)

/-- One iteration of the subdirectory loop: materialise an empty
directory at `fullPath/dirName` with `parent = fullPath`. -/
def setupSubdirStep (fullPath : String) (fs : FileSystem) (d : String) : FileSystem :=
  fsSet fs (fullPath ++ "/" ++ strReplaceFirst d "/" "") (FsNode.dir [] fullPath)

/-- One iteration of the `config.filesystem` loop of
`setupFileSystemFromConfig`. -/
def setupDirStep (user : String) (fs : FileSystem) (pc : String × List String) : FileSystem :=
  let fullPath := strReplaceFirst pc.1 "~" ("/home/" ++ user)
  (pc.2.filter (fun item => strEndsWith item "/")).foldl
    (setupSubdirStep fullPath)
    (fsSet fs fullPath (setupDirNode pc.2 fullPath))

/-- One iteration of the `config.files` loop: a file node at
`/home/user/filename` with `parent = /home/user`. -/
def setupFileStep (user : String) (fs : FileSystem) (fc : String × String) : FileSystem :=
  fsSet fs ("/home/" ++ user ++ "/" ++ fc.1) (FsNode.file fc.2 ("/home/" ++ user))

/-- The dynamic variant's `setupFileSystemFromConfig`. -/
def setupFileSystemFromConfig (cfg : Config) : FileSystem :=
  cfg.files.foldl (setupFileStep cfg.system.user)
    (cfg.filesystem.foldl (setupDirStep cfg.system.user) [])

/-! ## Path resolution (identical in both variants) -/

/-- The source's `resolvePath`: empty input returns `cwd`; absolute input is returned
verbatim; `..` reads the `parent` field of the node at `cwd` (JS
`parent || cwd` also falls back to `cwd` on an empty parent); `.`
returns `cwd`; anything else is `cwd + "/" + input` with the first
doubled separator collapsed. -/
def resolvePath (fs : FileSystem) (currentPath : String) (path : String) : String :=
  if path = "" then currentPath
  else if strStartsWith path "/" then path
  else if path = ".." then
    match alookup currentPath fs with
    | some n => if n.parent = "" then currentPath else n.parent
    | none => currentPath
  else if path = "." then currentPath
  else strReplaceFirst (currentPath ++ "/" ++ path) "//" "/"

/-! ## Command-table construction

Both variants add a fixed set of commands to the distro-supplied table
in `enhanceConfig`, but they merge differently:

* `script.js` builds `{...config.commands, ...additionalCommands}` — a
  spread in which the additional (core) entry wins whenever both tables
  define a key;
* the dynamic variant first sets the two meta-commands unconditionally,
  then inserts each core command only `if (!this.config.commands[cmd])`,
  and finally stamps the `output` of `whoami`/`pwd` (when present) with
  the live user and path. -/

/-- The `additionalCommands` object of `script.js`, in source order.
The `whoami` entry's `output` is read from `config.system.user` at
enhancement time. -/
def additionalCommands (user : String) : CommandTable :=
  [("cd", { description := "Change the current directory", action := some "changeDirectory" }),
   ("mkdir", { description := "Create a new directory", action := some "makeDirectory" }),
   ("touch", { description := "Create a new file", action := some "createFile" }),
   ("rm", { description := "Remove files or directories", action := some "removeFile" }),
   ("whoami", { description := "Print the current username", output := some [user] }),
   ("date", { description := "Display the current date and time", action := some "showDate" }),
   ("history", { description := "Show command history", action := some "showHistory" }),
   ("theme", { description := "Toggle between light and dark themes", action := some "toggleTheme" }),
   ("clear", { description := "Clear the terminal screen", action := some "clearScreen" })]

/-- The `enhanceConfig` of `script.js`:
`this.config.commands = { ...this.config.commands, ...additionalCommands }`.
The spread keeps the distro table's entries and then assigns each
additional entry over it, so the additional entries win on conflict. -/
def enhanceConfigStatic (commands : CommandTable) (user : String) : CommandTable :=
  (additionalCommands user).foldl (fun m kv => objSet m kv.1 kv.2) commands

/-- The `coreCommands` object of the dynamic variant, in source order. -/
def coreCommands : CommandTable :=
  [("cd", { description := "Change the current directory", action := some "changeDirectory" }),
   ("mkdir", { description := "Create a new directory", action := some "makeDirectory" }),
   ("touch", { description := "Create a new file", action := some "createFile" }),
   ("rm", { description := "Remove files or directories", action := some "removeFile" }),
   ("date", { description := "Display the current date and time", action := some "showDate" }),
   ("history", { description := "Show command history", action := some "showHistory" }),
   ("theme", { description := "Toggle between light and dark themes", action := some "toggleTheme" }),
   ("clear", { description := "Clear the terminal screen", action := some "clearScreen" })]

/-- One iteration of the dynamic variant's merge loop:
`if (!this.config.commands[cmd]) this.config.commands[cmd] = info`. -/
def mergeStep (m : CommandTable) (kv : String × Cmd) : CommandTable :=
  if tblHasKey m kv.1 then m else objSet m kv.1 kv.2

/-- JS `if (this.config.commands[k]) this.config.commands[k].output = value`. -/
def stampOutput (m : CommandTable) (k : String) (value : String) : CommandTable :=
  match alookup k m with
  | some c => objSet m k { c with output := some [value] }
  | none => m

/-- The `enhanceConfig` of the dynamic variant: unconditional
`switch-distro` / `list-distros`, the guarded `coreCommands` merge, then
the `whoami` / `pwd` output stamping. -/
def enhanceConfigDyn (commands : CommandTable) (user currentPath : String) : CommandTable :=
  let m := objSet commands "switch-distro"
    { description := "Switch to a different Linux distribution", action := some "switchDistro" }
  let m := objSet m "list-distros"
    { description := "List available Linux distributions", action := some "listDistros" }
  let m := coreCommands.foldl mergeStep m
  stampOutput (stampOutput m "whoami" user) "pwd" currentPath

/-! ## Interpreter dispatch (identical in both variants) -/

/-- A rendered output line: text and CSS class (empty class when
`renderLine` is called without one). -/
abbrev OutputLine := String × String

/-- The dispatch decision of `executeCommand`: either an entry of the
table is handed to `handleCommand` (together with the argument list and
the command name), or the not-found message is rendered. -/
inductive DispatchResult where
  | dispatched (cmd : Cmd) (args : List String) (name : String)
  | notFound (msg : String)
deriving DecidableEq

/-- The source's `executeCommand(command, args, fullCommand)`: exact full-line match
first, then first-token match, else
`config.system.commandNotFound.replace('{cmd}', command)`. -/
def executeCommand (commands : CommandTable) (commandNotFound : String)
    (fullCommand : String) : DispatchResult :=
  let toks := splitWhitespace fullCommand
  let command := toks.headD ""
  let args := toks.tail
  match alookup fullCommand commands with
  | some c => .dispatched c args fullCommand
  | none =>
    match alookup command commands with
    | some c => .dispatched c args command
    | none => .notFound (strReplaceFirst commandNotFound "{cmd}" command)

/-- The `processCommand` pipeline up to dispatch: trim the input line, split it on
whitespace and run `executeCommand`. -/
def processLine (commands : CommandTable) (commandNotFound : String)
    (line : String) : DispatchResult :=
  executeCommand commands commandNotFound (strTrim line)

/-! ## Suggestion engine (identical in both variants) -/

/-- The source's `getCommandSuggestions(input)`: filter the table's keys by
`cmd.startsWith(input.toLowerCase())`, keep the first five, pair each
with its description (`|| 'No description'`). -/
def getCommandSuggestions (commands : CommandTable) (input : String) :
    List (String × String) :=
  (((commands.map Prod.fst).filter
      (fun cmd => strStartsWith cmd (strToLower input))).take 5).map
    (fun cmd =>
      (cmd,
        match alookup cmd commands with
        | some c => if c.description = "" then "No description" else c.description
        | none => "No description"))

/-! ## Filesystem commands -/

/-- The source's `handleLs(args)`: resolve the optional target, report missing or
non-directory targets as errors, emit nothing for an empty directory,
and otherwise join the annotated children with two spaces on a single
line. -/
def handleLs (fs : FileSystem) (currentPath : String) (args : List String) :
    List OutputLine :=
  let targetPath :=
    if args.length > 0 then resolvePath fs currentPath (args.headD "") else currentPath
  match alookup targetPath fs with
  | none =>
    [("ls: cannot access '" ++ (if args.headD "" = "" then "." else args.headD "")
        ++ "': No such file or directory", "output-error")]
  | some (FsNode.file _ _) =>
    [("ls: " ++ args.headD "undefined" ++ ": Not a directory", "output-error")]
  | some (FsNode.dir contents _) =>
    if contents.length = 0 then []
    else
      [(joinSep "  "
          (contents.map (fun item =>
            let itemPath := strReplaceFirst (targetPath ++ "/" ++ item) "//" "/"
            match alookup itemPath fs with
            | some (FsNode.dir _ _) => "📁 " ++ item ++ "/"
            | _ => "📄 " ++ item)), "")]

/-- The source's `changeDirectory(path)` (identical in both variants): no argument or
`~` sets `currentPath` to the literal `'/home/user'`; otherwise the
resolved path must name an existing directory node, else an error line
is rendered and `currentPath` is unchanged.  Returns the new
`currentPath` and the rendered lines. -/
def changeDirectory (fs : FileSystem) (currentPath : String)
    (path : Option String) : String × List OutputLine :=
  if path.getD "" = "" || path = some "~" then ("/home/user", [])
  else
    let p := path.getD ""
    let targetPath := resolvePath fs currentPath p
    match alookup targetPath fs with
    | none => (currentPath, [("cd: " ++ p ++ ": No such file or directory", "output-error")])
    | some (FsNode.file _ _) =>
      (currentPath, [("cd: " ++ p ++ ": Not a directory", "output-error")])
    | some (FsNode.dir _ _) => (targetPath, [])

/-! ## History navigation -/

/-- Direction of a history keystroke. -/
inductive HistDir where
  | up
  | down

/-- The source's `navigateHistory(direction)`: no effect on an empty history; `up`
decrements the index while positive, `down` increments it while below
`history.length`; the input receives `history[index] || ''`.  Returns
the new index and the new input value (`none` when the method returned
without touching the input). -/
def navigateHistory (hist : List String) (idx : Nat) (dir : HistDir) :
    Nat × Option String :=
  if hist.length = 0 then (idx, none)
  else
    let idx' :=
      match dir with
      | .up => if idx > 0 then idx - 1 else idx
      | .down => if idx < hist.length then idx + 1 else idx
    (idx', some (hist.getD idx' ""))

/-! ## Cosmetic filesystem mutations -/

/-- The part of the terminal state the mock filesystem operations can
see: the filesystem map, the current path, and the rendered output. -/
structure TermState where
  fileSystem : FileSystem
  currentPath : String
  outputLines : List OutputLine
deriving DecidableEq

/-- The source's `renderLine(text, className)`: append one output line. -/
def renderLine (st : TermState) (text cssClass : String) : TermState :=
  { st with outputLines := st.outputLines ++ [(text, cssClass)] }

/-- The source's `makeDirectory(name)`: missing-operand error or a success message;
nothing else happens. -/
def makeDirectory (st : TermState) (name : Option String) : TermState :=
  if name.getD "" = "" then renderLine st "mkdir: missing operand" "output-error"
  else renderLine st ("📁 Created directory: " ++ name.getD "") "output-success"

/-- The source's `createFile(name)`: missing-operand error or a success message. -/
def createFile (st : TermState) (name : Option String) : TermState :=
  if name.getD "" = "" then renderLine st "touch: missing operand" "output-error"
  else renderLine st ("📄 Created file: " ++ name.getD "") "output-success"

/-- The source's `removeFile(name)`: missing-operand error or a removal message. -/
def removeFile (st : TermState) (name : Option String) : TermState :=
  if name.getD "" = "" then renderLine st "rm: missing operand" "output-error"
  else renderLine st ("🗑️ Removed: " ++ name.getD "") "output-warning"

/-! ## The claimed structural invariant -/

/-- The keys of the filesystem mapping. -/
def fsKeys (fs : FileSystem) : List String :=
  fs.map Prod.fst

/-- Whether a single path satisfies the claimed parent relation: its
parent path is in the mapping, maps to a directory, and that directory's
contents contain the path's basename. -/
def parentOk (fs : FileSystem) (p : String) : Bool :=
  match alookup (getParentPath p) fs with
  | some (FsNode.dir contents _) => contents.contains (basename p)
  | _ => false

/-- The claimed structural invariant of a built filesystem, as a
decidable check over the whole mapping. -/
def claimParentInvariant (fs : FileSystem) : Bool :=
  (fsKeys fs).all (fun p => p = "/" || parentOk fs p)

/-! ## Concrete fixtures used by counterexamples and witnesses -/

/-- A distro table that supplies its own `cd` entry. -/
def distroTableWithCd : CommandTable :=
  [("cd", { description := "distro cd", output := some ["distro"] })]

/-- A configuration declaring only `~` with one `/`-suffixed entry. -/
def cexConfig3 : Config :=
  { system := { user := "user", host := "web", commandNotFound := "bash: {cmd}: command not found" },
    filesystem := [("~", ["sub/"])], files := [], commands := [] }

/-- The configuration of the `ls` scenario: `~` holds `a.txt` and `sub/`,
and `files` maps `a.txt` to `hello`. -/
def cexConfig4 : Config :=
  { system := { user := "user", host := "web", commandNotFound := "bash: {cmd}: command not found" },
    filesystem := [("~", ["a.txt", "sub/"])], files := [("a.txt", "hello")], commands := [] }

/-- A configuration whose declared user is `arch`, so the configured home
directory is `/home/arch`. -/
def cexConfig8 : Config :=
  { system := { user := "arch", host := "archbox", commandNotFound := "bash: {cmd}: command not found" },
    filesystem := [("~", ["docs/"])], files := [], commands := [] }

/-- A table with a multi-word key and an `echo` entry. -/
def witnessTable2 : CommandTable :=
  [("sudo rm -rf", { description := "joke", output := some ["nope"] }),
   ("echo", { description := "echo", output := none })]

/-- A table holding only a lower-case `ls` key. -/
def witnessTable6 : CommandTable :=
  [("ls", { description := "list" })]

/-- A table holding only an upper-case `LS` key. -/
def cexTable6 : CommandTable :=
  [("LS", { description := "upper" })]

/-- A one-command table lacking every interpreter built-in. -/
def witnessTable10 : CommandTable :=
  [("pacman", { description := "pkg", output := some ["pacman output"] })]

/-- A filesystem with a single home directory node. -/
def witnessFs5 : FileSystem :=
  [("/home/user", FsNode.dir ["notes.txt"] "/home")]

/-- A small terminal state for the cosmetic-operation witness. -/
def witnessState9 : TermState :=
  { fileSystem := [("/home/user", FsNode.dir [] "/home")],
    currentPath := "/home/user", outputLines := [] }

/-! ## Association-list lemmas -/

theorem alookup_append {v : Type} (k : String) (l₁ l₂ : List (String × v)) :
    alookup k (l₁ ++ l₂) =
      match alookup k l₁ with
      | some x => some x
      | none => alookup k l₂ := by
  induction l₁ with
  | nil => simp [alookup]
  | cons kv rest ih =>
    by_cases h : kv.1 = k <;> simp [alookup, h, ih]

theorem alookup_isSome_append_right {v : Type} (k : String) (l₁ l₂ : List (String × v))
    (h : (alookup k l₂).isSome = true) : (alookup k (l₁ ++ l₂)).isSome = true := by
  rw [alookup_append]
  cases h1 : alookup k l₁ <;> simp [h, h1]

theorem alookup_mapReplace (m : CommandTable) (k' k : String) (v : Cmd) :
    alookup k (m.map (fun kv => if kv.1 = k' then (k', v) else kv)) =
      if k' = k then (if (alookup k' m).isSome then some v else none)
      else alookup k m := by
  induction m with
  | nil => simp [alookup]
  | cons kv rest ih =>
    by_cases h1 : kv.1 = k'
    · by_cases h2 : k' = k
      · subst h2
        simp [alookup, h1, ih]
      · simp [alookup, h1, h2, ih, fun h => h2 (h1.symm.trans h)]
    · by_cases h2 : kv.1 = k
      · have h3 : k' ≠ k := fun h => h1 (h2.trans h.symm)
        have h4 : ¬(k = k') := fun h => h3 h.symm
        simp [alookup, h1, h2, h3, h4]
      · simp [alookup, h1, h2, ih]

theorem alookup_objSet (m : CommandTable) (k' k : String) (v : Cmd) :
    alookup k (objSet m k' v) = if k' = k then some v else alookup k m := by
  unfold objSet tblHasKey
  by_cases h : (alookup k' m).isSome
  · simp [h, alookup_mapReplace]
  · simp [h, alookup_append]
    by_cases h2 : k' = k
    · subst h2
      cases h1 : alookup k' m with
      | some x => rw [h1] at h; simp at h
      | none => simp [alookup]
    · cases h1 : alookup k m <;> simp [alookup, h1, h2]

theorem mergeFold_some (C : CommandTable) :
    ∀ (m : CommandTable) (k : String) (v : Cmd), alookup k m = some v →
      alookup k (C.foldl mergeStep m) = some v := by
  induction C with
  | nil => intro m k v h; simpa using h
  | cons kv rest ih =>
    intro m k v h
    rw [List.foldl_cons]
    apply ih
    unfold mergeStep
    split
    · exact h
    · rw [alookup_objSet]
      split
      · next heq =>
        next hkey =>
          exfalso
          apply hkey
          unfold tblHasKey
          rw [heq, h]
          rfl
      · exact h

theorem mergeFold_none (C : CommandTable) :
    ∀ (m : CommandTable) (k : String), alookup k m = none →
      alookup k (C.foldl mergeStep m) = alookup k C := by
  induction C with
  | nil => intro m k h; simpa using h
  | cons kv rest ih =>
    intro m k h
    by_cases hk : kv.1 = k
    · subst hk
      have hstep : mergeStep m kv = objSet m kv.1 kv.2 := by
        unfold mergeStep tblHasKey
        rw [h]
        rfl
      have hset : alookup kv.1 (mergeStep m kv) = some kv.2 := by
        rw [hstep, alookup_objSet]
        simp
      rw [List.foldl_cons, mergeFold_some rest _ _ _ hset]
      simp [alookup]
    · have hstep : alookup k (mergeStep m kv) = none := by
        unfold mergeStep
        split
        · exact h
        · rw [alookup_objSet, if_neg hk]
          exact h
      rw [List.foldl_cons, ih _ _ hstep]
      simp [alookup, hk]

theorem alookup_stampOutput (m : CommandTable) (key value k : String) (h : k ≠ key) :
    alookup k (stampOutput m key value) = alookup k m := by
  unfold stampOutput
  split
  · rw [alookup_objSet, if_neg (Ne.symm h)]
  · rfl

theorem enhance_dyn_lookup (D : CommandTable) (user cwd k : String)
    (h1 : k ≠ "switch-distro") (h2 : k ≠ "list-distros")
    (h3 : k ≠ "whoami") (h4 : k ≠ "pwd") :
    alookup k (enhanceConfigDyn D user cwd) =
      match alookup k D with
      | some v => some v
      | none => alookup k coreCommands := by
  unfold enhanceConfigDyn
  rw [alookup_stampOutput _ _ _ _ h4, alookup_stampOutput _ _ _ _ h3]
  have hm2 : alookup k (objSet (objSet D "switch-distro"
      { description := "Switch to a different Linux distribution", action := some "switchDistro" })
      "list-distros"
      { description := "List available Linux distributions", action := some "listDistros" })
      = alookup k D := by
    rw [alookup_objSet, if_neg (Ne.symm h2), alookup_objSet, if_neg (Ne.symm h1)]
  cases hD : alookup k D with
  | some v => rw [mergeFold_some coreCommands _ _ _ (hm2.trans hD)]
  | none => rw [mergeFold_none coreCommands _ _ (hm2.trans hD)]

/-! ## Claim C1 — command-table merge bias -/

/-- Claim C1, counterexample.  In `script.js` the spread
`{...config.commands, ...additionalCommands}` lets the core defaults
win: for a distro table that supplies its own `cd` entry, the built
table no longer maps `cd` to the distro entry, contradicting the claim
that the built table maps `k` to `D[k]` whenever `k` is present in `D`. -/
theorem enhanceConfigStatic_cd_counterexample :
    (alookup "cd" distroTableWithCd
      = some { description := "distro cd", output := some ["distro"] }) ∧
    alookup "cd" (enhanceConfigStatic distroTableWithCd "user")
      = some { description := "Change the current directory", action := some "changeDirectory" } ∧
    alookup "cd" (enhanceConfigStatic distroTableWithCd "user")
      ≠ alookup "cd" distroTableWithCd := by
  decide

/-- Claim C1 (amended).  In the dynamic variant's `enhanceConfig`, for
every key `k` of the fixed `coreCommands` set the built table maps `k`
to the distro entry `D[k]` when `k` is present in `D` and to the core
default otherwise — the core defaults never overwrite a distro-supplied
entry there.  (In `script.js` the spread merge is biased the other way;
and the unconditional meta-commands and the `whoami`/`pwd` output
stamping sit outside the core-default set.) -/
theorem enhanceConfigDyn_distro_wins (D : CommandTable) (user cwd k : String)
    (hk : k ∈ coreCommands.map Prod.fst) :
    alookup k (enhanceConfigDyn D user cwd) =
      match alookup k D with
      | some v => some v
      | none => alookup k coreCommands := by
  have h1 : k ≠ "switch-distro" := by rintro rfl; revert hk; decide
  have h2 : k ≠ "list-distros" := by rintro rfl; revert hk; decide
  have h3 : k ≠ "whoami" := by rintro rfl; revert hk; decide
  have h4 : k ≠ "pwd" := by rintro rfl; revert hk; decide
  exact enhance_dyn_lookup D user cwd k h1 h2 h3 h4

/-- Witness for `enhanceConfigDyn_distro_wins` at the concrete distro
table that overrides `cd`: the distro entry survives, and the absent key
`mkdir` receives the core default. -/
theorem enhanceConfigDyn_distro_wins_witness :
    alookup "cd" (enhanceConfigDyn distroTableWithCd "user" "/home/user")
      = some { description := "distro cd", output := some ["distro"] } ∧
    alookup "mkdir" (enhanceConfigDyn distroTableWithCd "user" "/home/user")
      = some { description := "Create a new directory", action := some "makeDirectory" } := by
  constructor
  · rw [enhanceConfigDyn_distro_wins distroTableWithCd "user" "/home/user" "cd" (by decide)]
    decide
  · rw [enhanceConfigDyn_distro_wins distroTableWithCd "user" "/home/user" "mkdir" (by decide)]
    decide

/-! ## Claim C2 — dispatch order -/

/-- Claim C2.  For every submitted line: an entry keyed by the entire
trimmed line is dispatched first; otherwise an entry keyed by the first
whitespace token is dispatched; otherwise the output is the per-distro
not-found template with `{cmd}` replaced by the first token. -/
theorem executeCommand_dispatch_order (commands : CommandTable) (cnf line : String) :
    (∀ c, alookup (strTrim line) commands = some c →
      processLine commands cnf line
        = .dispatched c (splitWhitespace (strTrim line)).tail (strTrim line)) ∧
    (alookup (strTrim line) commands = none →
      ∀ c, alookup ((splitWhitespace (strTrim line)).headD "") commands = some c →
        processLine commands cnf line
          = .dispatched c (splitWhitespace (strTrim line)).tail
              ((splitWhitespace (strTrim line)).headD "")) ∧
    (alookup (strTrim line) commands = none →
      alookup ((splitWhitespace (strTrim line)).headD "") commands = none →
        processLine commands cnf line
          = .notFound (strReplaceFirst cnf "{cmd}"
              ((splitWhitespace (strTrim line)).headD ""))) := by
  refine ⟨?_, ?_, ?_⟩
  · intro c h
    simp only [processLine, executeCommand]
    rw [h]
  · intro h1 c h2
    simp only [processLine, executeCommand]
    rw [h1, h2]
  · intro h1 h2
    simp only [processLine, executeCommand]
    rw [h1, h2]

/-- Witness for `executeCommand_dispatch_order`: a multi-word key is
matched whole, a first-token key is matched next, and the unknown
command `foo` with the template
`bash: {cmd}: command not found` yields exactly
`bash: foo: command not found`. -/
theorem executeCommand_dispatch_order_witness :
    processLine witnessTable2 "bash: {cmd}: command not found" "sudo rm -rf"
      = .dispatched { description := "joke", output := some ["nope"] } ["rm", "-rf"] "sudo rm -rf" ∧
    processLine witnessTable2 "bash: {cmd}: command not found" "echo hi"
      = .dispatched { description := "echo", output := none } ["hi"] "echo" ∧
    processLine witnessTable2 "bash: {cmd}: command not found" "foo"
      = .notFound "bash: foo: command not found" := by
  refine ⟨?_, ?_, ?_⟩
  · exact ((executeCommand_dispatch_order witnessTable2 "bash: {cmd}: command not found"
      "sudo rm -rf").1 { description := "joke", output := some ["nope"] }
      (by decide)).trans (by decide)
  · exact ((executeCommand_dispatch_order witnessTable2 "bash: {cmd}: command not found"
      "echo hi").2.1 (by decide) { description := "echo", output := none }
      (by decide)).trans (by decide)
  · exact ((executeCommand_dispatch_order witnessTable2 "bash: {cmd}: command not found"
      "foo").2.2 (by decide) (by decide)).trans (by decide)

/-! ## Claim C10 — built-ins require a table entry -/

/-- Claim C10.  The interpreter's built-ins (`help`, `echo`, `cat`,
`ls`, `pwd`) run only from inside `handleCommand`, which is reached only
through a table entry; when the table lacks both the full line and the
first token, `executeCommand` renders the command-not-found message
instead, so no built-in behavior occurs. -/
theorem builtins_require_entry (commands : CommandTable) (cnf line : String)
    (_hb : (splitWhitespace (strTrim line)).headD "" ∈ ["help", "echo", "cat", "ls", "pwd"])
    (h1 : alookup (strTrim line) commands = none)
    (h2 : alookup ((splitWhitespace (strTrim line)).headD "") commands = none) :
    processLine commands cnf line
      = .notFound (strReplaceFirst cnf "{cmd}"
          ((splitWhitespace (strTrim line)).headD "")) := by
  simp only [processLine, executeCommand]
  rw [h1, h2]

/-- Witness for `builtins_require_entry`: a table without an `echo`
entry turns `echo hi` into the not-found message rather than echoing. -/
theorem builtins_require_entry_witness :
    processLine witnessTable10 "bash: {cmd}: command not found" "echo hi"
      = .notFound "bash: echo: command not found" := by
  exact (builtins_require_entry witnessTable10 "bash: {cmd}: command not found" "echo hi"
    (by decide) (by decide) (by decide)).trans (by decide)

/-! ## Claim C5 — path resolution -/

/-- Claim C5, counterexample.  `resolvePath` concatenates and then calls
JS `replace('//', '/')`, which collapses only the FIRST doubled
separator: from cwd `/` the input `a//b` concatenates to `//a//b` and
resolves to `/a//b`, which still contains `//` and differs from the
fully collapsed `/a/b` the claim demands. -/
theorem resolvePath_collapse_counterexample :
    resolvePath [] "/" "a//b" = "/a//b" ∧
    isInfixL ("//".data) (("/a//b" : String).data) = true ∧
    ("/a//b" : String) ≠ "/a/b" := by
  decide

/-- Claim C5 (amended).  For every filesystem and cwd: empty input and
`.` resolve to `cwd`; `..` resolves to the parent field of the node at
`cwd` (falling back to `cwd` when there is no node, or when the parent
field is the empty string); inputs beginning with `/` are returned
verbatim; every other input yields `cwd + "/" + input` with only the
first doubled separator collapsed. -/
theorem resolvePath_cases (fs : FileSystem) (cwd : String) :
    resolvePath fs cwd "" = cwd ∧
    resolvePath fs cwd "." = cwd ∧
    (∀ n, alookup cwd fs = some n → n.parent ≠ "" →
      resolvePath fs cwd ".." = n.parent) ∧
    (alookup cwd fs = none → resolvePath fs cwd ".." = cwd) ∧
    (∀ p, strStartsWith p "/" = true → resolvePath fs cwd p = p) ∧
    (∀ p, p ≠ "" → strStartsWith p "/" = false → p ≠ ".." → p ≠ "." →
      resolvePath fs cwd p = strReplaceFirst (cwd ++ "/" ++ p) "//" "/") := by
  have hdot : strStartsWith "." "/" = false := by decide
  have hdots : strStartsWith ".." "/" = false := by decide
  refine ⟨?_, ?_, ?_, ?_, ?_, ?_⟩
  · simp [resolvePath]
  · simp [resolvePath, hdot]
  · intro n hn hp
    simp [resolvePath, hdots, hn, hp]
  · intro hn
    simp [resolvePath, hdots, hn]
  · intro p hp
    have hp' : p ≠ "" := by
      intro h
      rw [h] at hp
      exact absurd hp (by decide)
    simp [resolvePath, hp, hp']
  · intro p h0 hs h2 h1
    simp [resolvePath, h0, hs, h2, h1]

/-- Witness for `resolvePath_cases` on a concrete filesystem, covering
every branch of the contract. -/
theorem resolvePath_cases_witness :
    resolvePath witnessFs5 "/home/user" "" = "/home/user" ∧
    resolvePath witnessFs5 "/home/user" "." = "/home/user" ∧
    resolvePath witnessFs5 "/home/user" ".." = "/home" ∧
    resolvePath witnessFs5 "/etc" ".." = "/etc" ∧
    resolvePath witnessFs5 "/home/user" "/etc/hosts" = "/etc/hosts" ∧
    resolvePath witnessFs5 "/home/user" "notes.txt" = "/home/user/notes.txt" := by
  obtain ⟨a, b, c, -, e, f⟩ := resolvePath_cases witnessFs5 "/home/user"
  obtain ⟨-, -, -, d, -, -⟩ := resolvePath_cases witnessFs5 "/etc"
  refine ⟨a, b, ?_, d (by decide), e "/etc/hosts" (by decide), ?_⟩
  · exact c (FsNode.dir ["notes.txt"] "/home") (by decide) (by decide)
  · exact (f "notes.txt" (by decide) (by decide) (by decide) (by decide)).trans (by decide)

theorem map_fst_pair {β : Type} (g : String → β) :
    ∀ (l : List String), (l.map (fun cmd => (cmd, g cmd))).map Prod.fst = l := by
  intro l
  induction l with
  | nil => rfl
  | cons a l ih => simp [ih]

/-! ## Claim C6 — suggestion engine -/

/-- Claim C6, counterexample.  The filter lower-cases only the input,
never the table key: the key `LS` is a case-insensitive prefix-extension
of the input `ls` (their lower-casings match exactly), yet
`getCommandSuggestions` returns nothing — matching is not independent of
the table key's letter case. -/
theorem getCommandSuggestions_case_counterexample :
    strStartsWith (strToLower "LS") (strToLower "ls") = true ∧
    getCommandSuggestions cexTable6 "ls" = [] := by
  decide

/-- Claim C6 (amended).  `getCommandSuggestions` returns at most five
entries, every returned key starts with the lower-cased input verbatim
(case-insensitive in the input, case-sensitive in the table key), and
the returned keys are a sublist of the table's keys in iteration
order. -/
theorem getCommandSuggestions_spec (T : CommandTable) (input : String) :
    (getCommandSuggestions T input).length ≤ 5 ∧
    (∀ x ∈ getCommandSuggestions T input,
      strStartsWith x.1 (strToLower input) = true) ∧
    List.Sublist ((getCommandSuggestions T input).map Prod.fst) (T.map Prod.fst) := by
  refine ⟨?_, ?_, ?_⟩
  · simp only [getCommandSuggestions, List.length_map, List.length_take]
    exact min_le_left _ _
  · intro x hx
    simp only [getCommandSuggestions] at hx
    obtain ⟨cmd, hc, rfl⟩ := List.mem_map.1 hx
    exact (List.mem_filter.1 (List.mem_of_mem_take hc)).2
  · have h1 : (((T.map Prod.fst).filter
        (fun cmd => strStartsWith cmd (strToLower input))).take 5).Sublist
        (T.map Prod.fst) :=
      (List.take_sublist _ _).trans (List.filter_sublist _)
    have h2 : (getCommandSuggestions T input).map Prod.fst
        = ((T.map Prod.fst).filter
            (fun cmd => strStartsWith cmd (strToLower input))).take 5 :=
      map_fst_pair _ _
    rw [h2]
    exact h1

/-- Witness for `getCommandSuggestions_spec`: an upper-case input
matches the lower-case table key `ls`. -/
theorem getCommandSuggestions_spec_witness :
    (getCommandSuggestions witnessTable6 "LS").length ≤ 5 ∧
    strStartsWith "ls" (strToLower "LS") = true ∧
    List.Sublist ((getCommandSuggestions witnessTable6 "LS").map Prod.fst)
      (witnessTable6.map Prod.fst) := by
  obtain ⟨h1, h2, h3⟩ := getCommandSuggestions_spec witnessTable6 "LS"
  exact ⟨h1, h2 ("ls", "list") (by decide), h3⟩

/-! ## Claim C7 — history navigation scenario -/

/-- Claim C7, counterexample.  From history `["ls", "pwd"]` and index 2,
up-up-down leaves the input at `pwd`, not `ls` as claimed. -/
theorem navigateHistory_scenario_counterexample :
    (navigateHistory ["ls", "pwd"]
      (navigateHistory ["ls", "pwd"]
        (navigateHistory ["ls", "pwd"] 2 HistDir.up).1 HistDir.up).1 HistDir.down).2
      = some "pwd" ∧
    (some "pwd" : Option String) ≠ some "ls" := by
  decide

/-- Claim C7 (amended).  Starting from history `["ls", "pwd"]` with the
cursor at `history.length = 2`: the first up shows `pwd` at index 1, the
second up shows `ls` at index 0, and the following down returns to
index 1 showing `pwd`, so the input ends as `pwd`. -/
theorem navigateHistory_scenario :
    navigateHistory ["ls", "pwd"] 2 HistDir.up = (1, some "pwd") ∧
    navigateHistory ["ls", "pwd"] 1 HistDir.up = (0, some "ls") ∧
    navigateHistory ["ls", "pwd"] 0 HistDir.down = (1, some "pwd") := by
  decide

/-! ## Claim C9 — cosmetic mutating operations -/

/-- Claim C9.  `mkdir`, `touch` and `rm` never touch the filesystem
mapping or the current path: with a missing or empty operand each renders
its missing-operand error, otherwise its success message, and in every
case the state is otherwise unchanged. -/
theorem mutatingOps_cosmetic (st : TermState) (name : Option String) :
    (makeDirectory st name).fileSystem = st.fileSystem ∧
    (makeDirectory st name).currentPath = st.currentPath ∧
    (createFile st name).fileSystem = st.fileSystem ∧
    (createFile st name).currentPath = st.currentPath ∧
    (removeFile st name).fileSystem = st.fileSystem ∧
    (removeFile st name).currentPath = st.currentPath ∧
    (name.getD "" = "" →
      (makeDirectory st name).outputLines
        = st.outputLines ++ [("mkdir: missing operand", "output-error")] ∧
      (createFile st name).outputLines
        = st.outputLines ++ [("touch: missing operand", "output-error")] ∧
      (removeFile st name).outputLines
        = st.outputLines ++ [("rm: missing operand", "output-error")]) ∧
    (name.getD "" ≠ "" →
      (makeDirectory st name).outputLines
        = st.outputLines ++ [("📁 Created directory: " ++ name.getD "", "output-success")] ∧
      (createFile st name).outputLines
        = st.outputLines ++ [("📄 Created file: " ++ name.getD "", "output-success")] ∧
      (removeFile st name).outputLines
        = st.outputLines ++ [("🗑️ Removed: " ++ name.getD "", "output-warning")]) := by
  by_cases h : name.getD "" = "" <;>
    simp [makeDirectory, createFile, removeFile, renderLine, h]

/-- Witness for `mutatingOps_cosmetic` at a concrete state, with and
without an operand. -/
theorem mutatingOps_cosmetic_witness :
    (makeDirectory witnessState9 (some "proj")).fileSystem = witnessState9.fileSystem ∧
    (makeDirectory witnessState9 (some "proj")).outputLines
      = [("📁 Created directory: proj", "output-success")] ∧
    (removeFile witnessState9 none).fileSystem = witnessState9.fileSystem ∧
    (removeFile witnessState9 none).outputLines
      = [("rm: missing operand", "output-error")] := by
  obtain ⟨h1, -, -, -, -, -, -, hsucc⟩ := mutatingOps_cosmetic witnessState9 (some "proj")
  obtain ⟨-, -, -, -, h5, -, herr, -⟩ := mutatingOps_cosmetic witnessState9 none
  refine ⟨h1, ?_, h5, ?_⟩
  · simpa using (hsucc (by decide)).1
  · simpa using (herr (by decide)).2.2

/-! ## Claim C3 — structural invariant of the built filesystem

The builder only ever inserts bindings, so presence of a key is
monotone along its folds; the lemmas below capture that and localise
which keys each loop iteration inserts. -/

theorem foldl_extends {α : Type} (step : FileSystem → α → FileSystem)
    (hstep : ∀ fs x, ∃ pre, step fs x = pre ++ fs) (xs : List α) :
    ∀ fs, ∃ pre, xs.foldl step fs = pre ++ fs := by
  induction xs with
  | nil => intro fs; exact ⟨[], rfl⟩
  | cons x xs ih =>
    intro fs
    obtain ⟨p1, h1⟩ := hstep fs x
    obtain ⟨p2, h2⟩ := ih (step fs x)
    exact ⟨p2 ++ p1, by rw [List.foldl_cons, h2, h1, List.append_assoc]⟩

theorem alookup_isSome_foldl {α : Type} (step : FileSystem → α → FileSystem)
    (hstep : ∀ fs x, ∃ pre, step fs x = pre ++ fs) (xs : List α) (fs : FileSystem)
    (k : String) (h : (alookup k fs).isSome = true) :
    (alookup k (xs.foldl step fs)).isSome = true := by
  obtain ⟨p, hp⟩ := foldl_extends step hstep xs fs
  rw [hp]
  exact alookup_isSome_append_right k p fs h

theorem setupSubdirStep_extends (fullPath : String) (fs : FileSystem) (d : String) :
    ∃ pre, setupSubdirStep fullPath fs d = pre ++ fs :=
  ⟨[(fullPath ++ "/" ++ strReplaceFirst d "/" "", FsNode.dir [] fullPath)], rfl⟩

theorem setupDirStep_extends (user : String) (fs : FileSystem) (pc : String × List String) :
    ∃ pre, setupDirStep user fs pc = pre ++ fs := by
  unfold setupDirStep
  obtain ⟨p, hp⟩ := foldl_extends (setupSubdirStep (strReplaceFirst pc.1 "~" ("/home/" ++ user)))
    (setupSubdirStep_extends _) (pc.2.filter (fun item => strEndsWith item "/"))
    (fsSet fs (strReplaceFirst pc.1 "~" ("/home/" ++ user))
      (setupDirNode pc.2 (strReplaceFirst pc.1 "~" ("/home/" ++ user))))
  refine ⟨p ++ [(strReplaceFirst pc.1 "~" ("/home/" ++ user),
    setupDirNode pc.2 (strReplaceFirst pc.1 "~" ("/home/" ++ user)))], ?_⟩
  rw [hp, List.append_assoc]
  rfl

theorem setupFileStep_extends (user : String) (fs : FileSystem) (fc : String × String) :
    ∃ pre, setupFileStep user fs fc = pre ++ fs :=
  ⟨[("/home/" ++ user ++ "/" ++ fc.1, FsNode.file fc.2 ("/home/" ++ user))], rfl⟩

theorem alookup_fsSet_self (fs : FileSystem) (k : String) (v : FsNode) :
    alookup k (fsSet fs k v) = some v := by
  simp [fsSet, alookup]

theorem subdir_fold_mem (fullPath : String) (ds : List String) :
    ∀ d ∈ ds, ∀ fs,
      (alookup (fullPath ++ "/" ++ strReplaceFirst d "/" "")
        (ds.foldl (setupSubdirStep fullPath) fs)).isSome = true := by
  induction ds with
  | nil => intro d hd; cases hd
  | cons d' ds ih =>
    intro d hd fs
    rw [List.foldl_cons]
    rcases List.mem_cons.1 hd with h | h
    · subst h
      apply alookup_isSome_foldl _ (setupSubdirStep_extends _) ds
      rw [setupSubdirStep, alookup_fsSet_self]
      rfl
    · exact ih d h _

theorem dirs_fold_mem (user : String) (L : List (String × List String)) :
    ∀ pc ∈ L, ∀ fs,
      (alookup (strReplaceFirst pc.1 "~" ("/home/" ++ user))
        (L.foldl (setupDirStep user) fs)).isSome = true ∧
      ∀ e ∈ pc.2, strEndsWith e "/" = true →
        (alookup (strReplaceFirst pc.1 "~" ("/home/" ++ user) ++ "/" ++ strReplaceFirst e "/" "")
          (L.foldl (setupDirStep user) fs)).isSome = true := by
  induction L with
  | nil => intro pc hpc; cases hpc
  | cons pc' L' ih =>
    intro pc hpc fs
    rw [List.foldl_cons]
    rcases List.mem_cons.1 hpc with h | h
    · subst h
      constructor
      · apply alookup_isSome_foldl _ (setupDirStep_extends user) L'
        unfold setupDirStep
        apply alookup_isSome_foldl _ (setupSubdirStep_extends _)
        rw [alookup_fsSet_self]
        rfl
      · intro e he hslash
        apply alookup_isSome_foldl _ (setupDirStep_extends user) L'
        unfold setupDirStep
        exact subdir_fold_mem _ _ e (List.mem_filter.2 ⟨he, hslash⟩) _
    · exact ih pc h _

/-- Claim C3, counterexample.  In the filesystem built from a
configuration declaring only `~ -> ["sub/"]` with user `user`:
`/home/user` is a non-root path of the mapping whose parent path
`/home` has no entry at all, and the materialized subdirectory
`/home/user/sub` has a parent entry whose contents do not include
`sub` — so the claimed invariant is false. -/
theorem fsInvariant_counterexample :
    (alookup "/home/user" (setupFileSystemFromConfig cexConfig3)).isSome = true ∧
    ("/home/user" : String) ≠ "/" ∧
    getParentPath "/home/user" = "/home" ∧
    alookup "/home" (setupFileSystemFromConfig cexConfig3) = none ∧
    (alookup "/home/user/sub" (setupFileSystemFromConfig cexConfig3)).isSome = true ∧
    parentOk (setupFileSystemFromConfig cexConfig3) "/home/user/sub" = false ∧
    claimParentInvariant (setupFileSystemFromConfig cexConfig3) = false := by
  decide

/-- Claim C3 (amended).  What the builder does guarantee: for every
declared directory path and every `/`-suffixed entry in its list, the
built mapping contains a node at the declared (tilde-expanded) path and
a node at the materialized subdirectory path beneath it.  The stronger
claimed invariant fails: a declared directory's own parent path (such as
`/home`) need not be present, and `/`-suffixed basenames are filtered
out of the parent's contents list. -/
theorem fsBuild_declared_paths_present (cfg : Config) (pc : String × List String)
    (hpc : pc ∈ cfg.filesystem) :
    (alookup (strReplaceFirst pc.1 "~" ("/home/" ++ cfg.system.user))
      (setupFileSystemFromConfig cfg)).isSome = true ∧
    ∀ e ∈ pc.2, strEndsWith e "/" = true →
      (alookup (strReplaceFirst pc.1 "~" ("/home/" ++ cfg.system.user)
          ++ "/" ++ strReplaceFirst e "/" "")
        (setupFileSystemFromConfig cfg)).isSome = true := by
  obtain ⟨h1, h2⟩ := dirs_fold_mem cfg.system.user cfg.filesystem pc hpc []
  unfold setupFileSystemFromConfig
  constructor
  · exact alookup_isSome_foldl _ (setupFileStep_extends _) _ _ _ h1
  · intro e he hslash
    exact alookup_isSome_foldl _ (setupFileStep_extends _) _ _ _ (h2 e he hslash)

/-- Witness for `fsBuild_declared_paths_present` at the concrete
configuration of the counterexample. -/
theorem fsBuild_declared_paths_present_witness :
    (alookup "/home/user" (setupFileSystemFromConfig cexConfig3)).isSome = true ∧
    (alookup "/home/user/sub" (setupFileSystemFromConfig cexConfig3)).isSome = true := by
  obtain ⟨h1, h2⟩ := fsBuild_declared_paths_present cexConfig3 ("~", ["sub/"]) (by decide)
  have e1 : strReplaceFirst "~" "~" ("/home/" ++ cexConfig3.system.user) = "/home/user" := by
    decide
  have e2 : strReplaceFirst "~" "~" ("/home/" ++ cexConfig3.system.user)
      ++ "/" ++ strReplaceFirst "sub/" "/" "" = "/home/user/sub" := by
    decide
  constructor
  · rw [e1] at h1
    exact h1
  · have h3 := h2 "sub/" (by decide) (by decide)
    rw [e2] at h3
    exact h3

/-! ## Claim C4 — the `ls` listing scenario -/

/-- Claim C4.  For the configuration declaring `~ -> ["a.txt", "sub/"]`
and `files = {a.txt: hello}`, `ls` in the home directory emits a single
line containing only `a.txt`: the `/`-suffixed entry `sub/` is filtered
out of the directory's contents even though the node `/home/user/sub`
exists, so the subdirectory is never listed — contradicting the claimed
output (and the repository's own usage documentation of `ls`). -/
theorem handleLs_drops_subdirectory :
    handleLs (setupFileSystemFromConfig cexConfig4) "/home/user" [] = [("📄 a.txt", "")] ∧
    alookup "/home/user/sub" (setupFileSystemFromConfig cexConfig4)
      = some (FsNode.dir [] "/home/user") ∧
    isInfixL ("sub".data) (("📄 a.txt" : String).data) = false := by
  decide

/-! ## Claim C8 — `cd` home reset -/

/-- Claim C8.  `changeDirectory` with `~` (or no argument) sets the
current path to the literal `/home/user`, not to the configured home:
with the declared user `arch` the configured home is `/home/arch`, yet
`cd ~` yields `/home/user`, a path with no node in the built
filesystem. -/
theorem changeDirectory_home_hardcoded :
    changeDirectory (setupFileSystemFromConfig cexConfig8) "/home/arch" (some "~")
      = ("/home/user", []) ∧
    changeDirectory (setupFileSystemFromConfig cexConfig8) "/home/arch" none
      = ("/home/user", []) ∧
    alookup "/home/user" (setupFileSystemFromConfig cexConfig8) = none ∧
    ("/home/user" : String) ≠ "/home/arch" := by
  decide

end WebTerm
